import Mathlib

/-!
Verification of the job lifecycle and history-tracking subsystem of the
whisper_cpp_gui backend (src-tauri).

The Rust sources are embedded shallowly:

* `TranscriptionStatus`, `TranscriptionResult`, `TranscriptionHistory`,
  `HistoryQuery`, `HistoryListResponse` mirror `src/models/mod.rs`.
* Machine strings are Lean `String`s; Rust's byte-lexicographic `str`
  ordering coincides with code-point order on the underlying `List Char`,
  so comparisons are done on `String.data`.  Rust's `starts_with`,
  `contains` and `to_lowercase` are re-implemented over `List Char`
  (`to_lowercase` in its ASCII case) because the claims only exercise them
  on plain ASCII data.
* `chrono::Utc::now` / `to_rfc3339` / `parse_from_rfc3339` and
  `uuid::Uuid::new_v4` are nondeterministic inputs; they are modelled by a
  `Clock` value (an instant in milliseconds, a rendering function and a
  partial parsing function) and an explicit `uuid : String` argument.
  Within a single store operation every `Utc::now()` call is modelled as
  the same instant; no claim below depends on the instants differing.
  `duration_seconds` (an `f64` in Rust, `num_milliseconds as f64 / 1000.0`)
  is modelled as a rational number of seconds.
* The filesystem is a `World`: `disk` maps a path to the size of the file
  stored there (`none` = no such file), `metadata` is the per-job
  `metadata.json` store keyed by job id (the metadata path is a function
  of the id alone), and `index` is the optional `history.json` content.
  Directory creation has no observable effect in this model and is
  dropped; `tokio::fs::copy` is a point update of `disk`.
-/

namespace WhisperGui

/-- Characters of `hay` begin with the characters of `nee`; models Rust
`str::starts_with`. -/
def charsBegins : List Char → List Char → Bool
  | _, [] => true
  | [], _ :: _ => false
  | a :: as, b :: bs => a == b && charsBegins as bs

/-- The character list `nee` occurs contiguously inside `hay`; models Rust
`str::contains` for string patterns. -/
def charsHasSub : List Char → List Char → Bool
  | [], nee => charsBegins [] nee
  | h :: t, nee => charsBegins (h :: t) nee || charsHasSub t nee

/-- ASCII lower-casing of one character; models Rust `to_lowercase` on the
ASCII inputs the claims exercise. -/
def lowerChar (c : Char) : Char :=
  if 'A' ≤ c ∧ c ≤ 'Z' then Char.ofNat (c.toNat + 32) else c

/-- Lower-cased character list of a string. -/
def lowerStr (s : String) : List Char := s.data.map lowerChar

/-- Rust `str::starts_with` on strings. -/
def strBegins (s p : String) : Bool := charsBegins s.data p.data

/-- Rust byte-lexicographic `<` on strings, via code-point order on the
character lists. -/
def strLt (a b : String) : Bool := decide (a.data < b.data)

/-- The status enum of `models/mod.rs` (`TranscriptionStatus`). -/
inductive TranscriptionStatus
  | Idle
  | Running
  | Completed
  | Failed
deriving DecidableEq

/-- One produced output file (`models/mod.rs`, `TranscriptionResult`). -/
structure TranscriptionResult where
  file_path : String
  format : String
  file_size : Nat
  created_at : String
deriving DecidableEq

/-- One job record (`models/mod.rs`, `TranscriptionHistory`).  The Rust
`HashMap<String, String>` of options is modelled as an association list in
iteration order. -/
structure TranscriptionHistory where
  id : String
  original_file_name : String
  original_file_path : String
  model_used : String
  options_used : List (String × String)
  results : List TranscriptionResult
  status : TranscriptionStatus
  created_at : String
  completed_at : Option String
  duration_seconds : Option ℚ
  tags : List String
  notes : Option String
  error_message : Option String
deriving DecidableEq

/-- Model of the ambient clock and timestamp codec: `now` is the current
instant in milliseconds, `render` is `chrono::DateTime::to_rfc3339` and
`parse` is `chrono::DateTime::parse_from_rfc3339` (with `none` for a parse
error). -/
structure Clock where
  now : Int
  render : Int → String
  parse : String → Option Int

/-- Constructor `TranscriptionHistory::new`; the fresh `Uuid::new_v4`
value is the explicit `uuid` argument. -/
def TranscriptionHistory.new (c : Clock) (uuid : String)
    (original_file_name original_file_path model_used : String)
    (options_used : List (String × String)) : TranscriptionHistory :=
  { id := uuid
    original_file_name := original_file_name
    original_file_path := original_file_path
    model_used := model_used
    options_used := options_used
    results := []
    status := .Running
    created_at := c.render c.now
    completed_at := none
    duration_seconds := none
    tags := []
    notes := none
    error_message := none }

/-- Method `TranscriptionHistory::mark_completed`: set the status and
`completed_at`, and compute `duration_seconds` from `now - created_at`
when `created_at` parses (otherwise leave it untouched). -/
def TranscriptionHistory.mark_completed (h : TranscriptionHistory) (c : Clock) :
    TranscriptionHistory :=
  let h := { h with status := .Completed, completed_at := some (c.render c.now) }
  match c.parse h.created_at with
  | some created => { h with duration_seconds := some (((c.now - created : Int) : ℚ) / 1000) }
  | none => h

/-- Method `TranscriptionHistory::mark_failed`. -/
def TranscriptionHistory.mark_failed (h : TranscriptionHistory) (c : Clock)
    (error_message : String) : TranscriptionHistory :=
  { h with status := .Failed
           completed_at := some (c.render c.now)
           error_message := some error_message }

/-- Method `TranscriptionHistory::add_result`. -/
def TranscriptionHistory.add_result (h : TranscriptionHistory)
    (result : TranscriptionResult) : TranscriptionHistory :=
  { h with results := h.results ++ [result] }

/-- Method `TranscriptionHistory::get_formats`. -/
def TranscriptionHistory.get_formats (h : TranscriptionHistory) : List String :=
  h.results.map (·.format)

/-- Records reachable through the store's record operations: created by
`TranscriptionHistory::new` (as `create_history_entry` does) and then
transformed by `mark_completed` / `mark_failed` (job termination),
`add_result` (result registration), and the tag / note updates
(`update_history_tags`, `update_history_notes`). -/
inductive Reachable : TranscriptionHistory → Prop
  | new (c : Clock) (uuid n p m : String) (o : List (String × String)) :
      Reachable (TranscriptionHistory.new c uuid n p m o)
  | completed (c : Clock) (h : TranscriptionHistory) :
      Reachable h → Reachable (h.mark_completed c)
  | failed (c : Clock) (h : TranscriptionHistory) (msg : String) :
      Reachable h → Reachable (h.mark_failed c msg)
  | addResult (h : TranscriptionHistory) (r : TranscriptionResult) :
      Reachable h → Reachable (h.add_result r)
  | setTags (h : TranscriptionHistory) (ts : List String) :
      Reachable h → Reachable { h with tags := ts }
  | setNotes (h : TranscriptionHistory) (ns : Option String) :
      Reachable h → Reachable { h with notes := ns }

/-- A concrete clock for witnesses and counterexamples. -/
def clock0 : Clock :=
  { now := 0
    render := fun _ => "1970-01-01T00:00:00+00:00"
    parse := fun _ => some 0 }

/-- A record that was created and then immediately marked failed. -/
def failedSample : TranscriptionHistory :=
  (TranscriptionHistory.new clock0 "id-0" "a.mp3" "/tmp/a.mp3" "base" []).mark_failed
    clock0 "boom"

/-- C1 (counterexample).  The three-way equivalence claimed for reachable
records fails: a record that is created and immediately marked failed has
`status = Failed` and `completed_at ≠ none` but still
`duration_seconds = none` (`mark_failed` never sets the duration), so
`status = Running` and `duration_seconds = none` are not equivalent. -/
theorem reachable_invariant_counterexample :
    Reachable failedSample ∧
      failedSample.status = .Failed ∧
      failedSample.duration_seconds = none ∧
      ¬ (failedSample.status = .Running ↔ failedSample.duration_seconds = none) :=
  ⟨Reachable.failed clock0 _ "boom" (Reachable.new clock0 "id-0" "a.mp3" "/tmp/a.mp3" "base" []),
    by decide, by decide, by decide⟩

/-- C1 (amended).  For every record reachable through the store's
operations: `status = Running` iff `completed_at = none`; while the record
is Running its `duration_seconds` is `none` (the converse direction of the
claimed equivalence fails, see the counterexample); and every Failed
record has `error_message` set. -/
theorem reachable_invariant (h : TranscriptionHistory) (hr : Reachable h) :
    (h.status = .Running ↔ h.completed_at = none) ∧
      (h.status = .Running → h.duration_seconds = none) ∧
      (h.status = .Failed → h.error_message ≠ none) := by
  induction hr with
  | new c uuid n p m o =>
      simp [TranscriptionHistory.new]
  | completed c h _ ih =>
      unfold TranscriptionHistory.mark_completed
      cases hp : c.parse h.created_at <;> simp [hp]
  | failed c h msg _ ih =>
      simp [TranscriptionHistory.mark_failed]
  | addResult h r ih ih2 =>
      simpa [TranscriptionHistory.add_result] using ih2
  | setTags h ts ih ih2 =>
      simpa using ih2
  | setNotes h ns ih ih2 =>
      simpa using ih2

/-- C1 (witness): the invariant instantiated at a freshly created record. -/
theorem reachable_invariant_witness :
    ((TranscriptionHistory.new clock0 "w1" "f.mp3" "/tmp/f.mp3" "base" []).status = .Running ↔
        (TranscriptionHistory.new clock0 "w1" "f.mp3" "/tmp/f.mp3" "base" []).completed_at = none) ∧
      ((TranscriptionHistory.new clock0 "w1" "f.mp3" "/tmp/f.mp3" "base" []).status = .Running →
        (TranscriptionHistory.new clock0 "w1" "f.mp3" "/tmp/f.mp3" "base" []).duration_seconds = none) ∧
      ((TranscriptionHistory.new clock0 "w1" "f.mp3" "/tmp/f.mp3" "base" []).status = .Failed →
        (TranscriptionHistory.new clock0 "w1" "f.mp3" "/tmp/f.mp3" "base" []).error_message ≠ none) :=
  reachable_invariant _ (Reachable.new clock0 "w1" "f.mp3" "/tmp/f.mp3" "base" [])

/-- C6.  `mark_completed` always sets `status = Completed` and a non-`none`
`completed_at`; its result can have `duration_seconds = none` only when the
record's `created_at` does not parse as an RFC-3339 timestamp (and no error
is raised in that case, `mark_completed` being total); when `created_at`
parses to the instant `t`, `duration_seconds` is the elapsed time
`now - t` (in seconds, computed from milliseconds). -/
theorem mark_completed_spec (c : Clock) (h : TranscriptionHistory) :
    (h.mark_completed c).status = .Completed ∧
      (h.mark_completed c).completed_at = some (c.render c.now) ∧
      ((h.mark_completed c).duration_seconds = none → c.parse h.created_at = none) ∧
      (∀ t : Int, c.parse h.created_at = some t →
        (h.mark_completed c).duration_seconds = some (((c.now - t : Int) : ℚ) / 1000)) := by
  unfold TranscriptionHistory.mark_completed
  cases hp : c.parse h.created_at <;> simp_all

/-! ## The Job Record Store (`services/history_service.rs`) -/

/-- The observable filesystem state: `disk` maps a file path to the size of
the file stored there (`none` = no file), `metadata` holds each job's
`metadata.json` keyed by job id (the metadata path is derived from the id
alone), and `index` is the content of `history.json` when that file
exists. -/
structure World where
  disk : String → Option Nat
  metadata : List (String × TranscriptionHistory)
  index : Option (List TranscriptionHistory)

/-- The path fields of `HistoryService`. -/
structure HistoryService where
  whisper_gui_dir : String
  results_dir : String
  history_index_file : String

/-- Method `HistoryService::get_history_directory`. -/
def HistoryService.get_history_directory (s : HistoryService) (history_id : String) :
    String :=
  s.results_dir ++ "/" ++ history_id

/-- Method `HistoryService::get_result_file_path`: the job's `files`
directory joined with `result.{format}`. -/
def HistoryService.get_result_file_path (s : HistoryService)
    (history_id format : String) : String :=
  s.get_history_directory history_id ++ "/files/result." ++ format

/-- Writing a record's `metadata.json`: replace the entry stored under the
record's id, or create it. -/
def setMeta : List (String × TranscriptionHistory) → TranscriptionHistory →
    List (String × TranscriptionHistory)
  | [], h => [(h.id, h)]
  | (k, v) :: rest, h => if k = h.id then (k, h) :: rest else (k, v) :: setMeta rest h

/-- Reading a record's `metadata.json` by id. -/
def getMeta (m : List (String × TranscriptionHistory)) (history_id : String) :
    Option TranscriptionHistory :=
  (m.find? (fun kv => kv.1 = history_id)).map (·.2)

/-- Method `HistoryService::save_history_metadata`. -/
def save_history_metadata (w : World) (history : TranscriptionHistory) : World :=
  { w with metadata := setMeta w.metadata history }

/-- Method `HistoryService::load_history_metadata` (`none` models the
error on a missing or unreadable metadata file). -/
def load_history_metadata (w : World) (history_id : String) :
    Option TranscriptionHistory :=
  getMeta w.metadata history_id

/-- Method `HistoryService::load_history_index`: an absent `history.json`
yields the empty list, not an error. -/
def load_history_index (w : World) : List TranscriptionHistory :=
  w.index.getD []

/-- Method `HistoryService::save_history_index`. -/
def save_history_index (w : World) (index : List TranscriptionHistory) : World :=
  { w with index := some index }

/-- The in-memory index reconciliation inside
`HistoryService::update_history_index`: overwrite the first entry whose id
matches, or push the record at the end. -/
def update_index_entry (index : List TranscriptionHistory)
    (history : TranscriptionHistory) : List TranscriptionHistory :=
  match index with
  | [] => [history]
  | x :: xs => if x.id = history.id then history :: xs else x :: update_index_entry xs history

/-- Method `HistoryService::update_history_index`: load the whole index,
reconcile, save it back. -/
def update_history_index (w : World) (history : TranscriptionHistory) : World :=
  save_history_index w (update_index_entry (load_history_index w) history)

/-- Method `HistoryService::create_history_entry`.  Directory creation
(`ensure_directories`, `create_dir_all`) has no observable effect in this
model; the fresh uuid is the explicit `uuid` argument. -/
def create_history_entry (c : Clock) (uuid : String) (w : World)
    (original_file_name original_file_path model_used : String)
    (options_used : List (String × String)) : TranscriptionHistory × World :=
  let history := TranscriptionHistory.new c uuid original_file_name original_file_path
    model_used options_used
  let w := save_history_metadata w history
  let w := update_history_index w history
  (history, w)

/-- Method `HistoryService::get_history`. -/
def get_history (w : World) (history_id : String) : Option TranscriptionHistory :=
  load_history_metadata w history_id

/-- Method `HistoryService::mark_history_failed`: load, `mark_failed`,
save the metadata and update the index. -/
def mark_history_failed (c : Clock) (w : World) (history_id : String)
    (error_message : String) : Except String (TranscriptionHistory × World) :=
  match load_history_metadata w history_id with
  | none => .error ("History not found: " ++ history_id)
  | some history =>
      let failed_history := history.mark_failed c error_message
      let w := save_history_metadata w failed_history
      let w := update_history_index w failed_history
      .ok (failed_history, w)

/-- Method `HistoryService::delete_history`: remove the job's directory
subtree (all disk files under it and its metadata file), then filter its id
out of the index. -/
def delete_history (s : HistoryService) (w : World) (history_id : String) : World :=
  let dir := s.get_history_directory history_id
  let w := { w with
    disk := fun p => if strBegins p (dir ++ "/") then none else w.disk p
    metadata := w.metadata.filter (fun kv => kv.1 ≠ history_id) }
  save_history_index w ((load_history_index w).filter (fun item => item.id ≠ history_id))

theorem getMeta_setMeta (m : List (String × TranscriptionHistory))
    (h : TranscriptionHistory) : getMeta (setMeta m h) h.id = some h := by
  induction m with
  | nil => simp [setMeta, getMeta]
  | cons kv rest ih =>
      obtain ⟨k, v⟩ := kv
      by_cases hk : k = h.id
      · simp [setMeta, getMeta, hk]
      · simpa [setMeta, getMeta, List.find?, hk] using ih

/-- C5.  `create_history_entry` followed immediately by `get_history` at
the new record's id returns exactly the created record, which is `Running`
with empty `results` and `completed_at = none`. -/
theorem create_then_get (c : Clock) (uuid : String) (w : World)
    (n p m : String) (o : List (String × String)) :
    get_history (create_history_entry c uuid w n p m o).2
        (create_history_entry c uuid w n p m o).1.id
      = some (create_history_entry c uuid w n p m o).1 ∧
      (create_history_entry c uuid w n p m o).1.status = .Running ∧
      (create_history_entry c uuid w n p m o).1.results = [] ∧
      (create_history_entry c uuid w n p m o).1.completed_at = none := by
  refine ⟨?_, rfl, rfl, rfl⟩
  simpa [create_history_entry, get_history, load_history_metadata,
    update_history_index, save_history_index, save_history_metadata] using
    getMeta_setMeta w.metadata (TranscriptionHistory.new c uuid n p m o)

theorem mem_update_index_entry_ids (idx : List TranscriptionHistory)
    (h : TranscriptionHistory) (a : String)
    (ha : a ∈ (update_index_entry idx h).map (·.id)) :
    a = h.id ∨ a ∈ idx.map (·.id) := by
  induction idx with
  | nil => simpa [update_index_entry] using ha
  | cons x xs ih =>
      by_cases hx : x.id = h.id
      · simp only [update_index_entry, if_pos hx, List.map_cons, List.mem_cons] at ha
        rcases ha with ha | ha
        · exact .inl ha
        · exact .inr (by simp [ha])
      · simp only [update_index_entry, if_neg hx, List.map_cons, List.mem_cons] at ha
        rcases ha with ha | ha
        · exact .inr (by simp [ha])
        · rcases ih ha with ha | ha
          · exact .inl ha
          · exact .inr (by simp [ha])

theorem update_index_entry_nodup (idx : List TranscriptionHistory)
    (h : TranscriptionHistory) (hnd : (idx.map (·.id)).Nodup) :
    ((update_index_entry idx h).map (·.id)).Nodup := by
  induction idx with
  | nil => simp [update_index_entry]
  | cons x xs ih =>
      simp only [List.map_cons, List.nodup_cons] at hnd
      by_cases hx : x.id = h.id
      · simp only [update_index_entry, if_pos hx, List.map_cons, List.nodup_cons]
        exact ⟨hx ▸ hnd.1, hnd.2⟩
      · simp only [update_index_entry, if_neg hx, List.map_cons, List.nodup_cons]
        refine ⟨fun hmem => ?_, ih hnd.2⟩
        rcases mem_update_index_entry_ids xs h x.id hmem with h1 | h1
        · exact hx h1
        · exact hnd.1 h1

/-- C10.  Index reconciliation preserves uniqueness of ids:
`update_history_index` replaces the entry matched by id or appends a new
one, and `delete_history` removes every entry carrying the deleted id, so
an index whose ids are unique stays that way (and after a deletion the
deleted id is gone entirely). -/
theorem history_index_unique (s : HistoryService) (w : World)
    (h : TranscriptionHistory) (did : String)
    (hnd : ((load_history_index w).map (·.id)).Nodup) :
    ((load_history_index (update_history_index w h)).map (·.id)).Nodup ∧
      ((load_history_index (delete_history s w did)).map (·.id)).Nodup ∧
      (∀ x ∈ load_history_index (delete_history s w did), x.id ≠ did) := by
  refine ⟨?_, ?_, ?_⟩
  · exact update_index_entry_nodup (load_history_index w) h hnd
  · show (((load_history_index w).filter _).map (·.id)).Nodup
    exact hnd.sublist (List.Sublist.map _ (List.filter_sublist _))
  · intro x hx
    have := (List.mem_filter.mp hx).2
    simpa using this

/-- A concrete service and small worlds for witnesses. -/
def hs0 : HistoryService :=
  { whisper_gui_dir := "/h/.whisper-gui"
    results_dir := "/h/.whisper-gui/results"
    history_index_file := "/h/.whisper-gui/history.json" }

/-- A freshly created record with the given id, for witnesses. -/
def sampleRecord (uuid : String) : TranscriptionHistory :=
  TranscriptionHistory.new clock0 uuid "a.mp3" "/tmp/a.mp3" "base" []

def w10 : World :=
  { disk := fun _ => none
    metadata := []
    index := some [sampleRecord "a", sampleRecord "b"] }

/-- C10 (witness): uniqueness preservation at a concrete two-entry index. -/
theorem history_index_unique_witness :
    ((load_history_index (update_history_index w10 (sampleRecord "b"))).map (·.id)).Nodup ∧
      ((load_history_index (delete_history hs0 w10 "a")).map (·.id)).Nodup ∧
      (∀ x ∈ load_history_index (delete_history hs0 w10 "a"), x.id ≠ "a") :=
  history_index_unique hs0 w10 (sampleRecord "b") "a" (by decide)

/-! ## The Job Query Engine (`HistoryService::list_history` / `matches_query`) -/

/-- The query value object (`models/mod.rs`, `HistoryQuery`). -/
structure HistoryQuery where
  limit : Option Nat
  offset : Option Nat
  search : Option String
  model_filter : Option String
  format_filter : Option String
  tag_filter : Option String
  status_filter : Option TranscriptionStatus
  date_from : Option String
  date_to : Option String

/-- The page returned by `list_history` (`models/mod.rs`,
`HistoryListResponse`). -/
structure HistoryListResponse where
  items : List TranscriptionHistory
  total_count : Nat
  has_more : Bool

/-- Method `HistoryService::matches_query`: the conjunction of every
filter present in the query.  The status filter compares
`std::mem::discriminant`s, which on this payload-free enum is plain
equality; the date filters are the string comparisons
`created_at < date_from` / `created_at > date_to` (byte-lexicographic). -/
def matches_query (item : TranscriptionHistory) (query : HistoryQuery) : Bool :=
  (match query.search with
   | some search => charsHasSub (lowerStr item.original_file_name) (lowerStr search)
   | none => true) &&
  (match query.model_filter with
   | some model => decide (item.model_used = model)
   | none => true) &&
  (match query.format_filter with
   | some format => decide (format ∈ item.get_formats)
   | none => true) &&
  (match query.tag_filter with
   | some tag => decide (tag ∈ item.tags)
   | none => true) &&
  (match query.status_filter with
   | some status => decide (item.status = status)
   | none => true) &&
  (match query.date_from with
   | some date_from => ! strLt item.created_at date_from
   | none => true) &&
  (match query.date_to with
   | some date_to => ! strLt date_to item.created_at
   | none => true)

/-- The comparator of `list_history`'s sort:
`b.created_at.cmp(&a.created_at)`, i.e. `a` may precede `b` exactly when
`a.created_at ≥ b.created_at` (descending, newest first).  Rust's
`sort_by` and `List.mergeSort` are both stable, so they agree. -/
def created_at_desc (a b : TranscriptionHistory) : Bool :=
  decide (b.created_at.data ≤ a.created_at.data)

/-- Method `HistoryService::list_history`: filter, sort descending by
`created_at`, then page with `offset` defaulting to 0 and `limit` to 50. -/
def list_history (query : HistoryQuery) (index : List TranscriptionHistory) :
    HistoryListResponse :=
  let filtered_items := index.filter (fun item => matches_query item query)
  let sorted := filtered_items.mergeSort created_at_desc
  let total_count := sorted.length
  let offset := query.offset.getD 0
  let limit := query.limit.getD 50
  let end_index := min (offset + limit) total_count
  let items := if offset < total_count then (sorted.drop offset).take (end_index - offset) else []
  let has_more := decide (end_index < total_count)
  { items := items, total_count := total_count, has_more := has_more }

theorem created_at_desc_trans (a b c : TranscriptionHistory)
    (h1 : created_at_desc a b = true) (h2 : created_at_desc b c = true) :
    created_at_desc a c = true := by
  simp only [created_at_desc, decide_eq_true_iff] at *
  exact le_trans h2 h1

theorem created_at_desc_total (a b : TranscriptionHistory) :
    (created_at_desc a b || created_at_desc b a) = true := by
  simp only [created_at_desc, Bool.or_eq_true, decide_eq_true_iff]
  exact (le_total b.created_at.data a.created_at.data)

/-- C4.  `list_history` filters by the query, sorts descending by
`created_at` (lexicographically, newest first) and pages with the
defaults `offset = 0`, `limit = 50`: with `N` matching records the page
holds `min L (N - O)` items (so it is empty when `O ≥ N`), `total_count`
is the pre-pagination `N`, `has_more` holds exactly when `O + L < N`,
every returned item matches the query, and consecutive returned items are
in descending `created_at` order. -/
theorem list_history_spec (query : HistoryQuery) (index : List TranscriptionHistory) :
    (list_history query index).total_count
        = (index.filter (fun item => matches_query item query)).length ∧
      (list_history query index).items.length
        = min (query.limit.getD 50)
            ((index.filter (fun item => matches_query item query)).length -
              query.offset.getD 0) ∧
      ((list_history query index).has_more = true ↔
        query.offset.getD 0 + query.limit.getD 50
          < (index.filter (fun item => matches_query item query)).length) ∧
      (∀ x ∈ (list_history query index).items, matches_query x query = true) ∧
      (list_history query index).items.Pairwise
        (fun a b => created_at_desc a b = true) := by
  have hlen : ((index.filter (fun item => matches_query item query)).mergeSort
      created_at_desc).length
      = (index.filter (fun item => matches_query item query)).length :=
    List.length_mergeSort _
  refine ⟨hlen, ?_, ?_, ?_, ?_⟩
  · simp only [list_history]
    split
    · simp only [List.length_take, List.length_drop, hlen]
      omega
    · simp only [List.length_nil]
      omega
  · simp only [list_history, decide_eq_true_iff, hlen]
    omega
  · intro x hx
    simp only [list_history] at hx
    split at hx
    · have hx2 : x ∈ (index.filter (fun item => matches_query item query)).mergeSort
          created_at_desc :=
        ((List.take_sublist _ _).trans (List.drop_sublist _ _)).mem hx
      have hx3 := (List.mergeSort_perm _ created_at_desc).mem_iff.mp hx2
      exact (List.mem_filter.mp hx3).2
    · simp at hx
  · simp only [list_history]
    split
    · exact List.Pairwise.sublist ((List.take_sublist _ _).trans (List.drop_sublist _ _))
        (List.sorted_mergeSort created_at_desc_trans created_at_desc_total _)
    · exact List.Pairwise.nil

/-! ## Building the engine command line
(`WhisperService::start_transcription_with_options`, argument loop) -/

/-- The configuration submitted by the caller (`models/mod.rs`,
`WhisperConfig`); the option `HashMap` is an association list in iteration
order. -/
structure WhisperConfig where
  model : String
  input_file : String
  options : List (String × String)

/-- One iteration of the option loop: a key starting with `output-` is
pushed as a bare flag and records that an output format was named; an
empty value pushes a bare flag; otherwise the flag and its value are
pushed. -/
def arg_step (st : List String × Bool) (kv : String × String) : List String × Bool :=
  if strBegins kv.1 "output-" then (st.1 ++ ["--" ++ kv.1], true)
  else if kv.2 = "" then (st.1 ++ ["--" ++ kv.1], st.2)
  else (st.1 ++ ["--" ++ kv.1, kv.2], st.2)

/-- The argument list built inside `start_transcription_with_options`:
model, input file, the `--output-file` base, the translated options, and
a trailing `--output-srt` when no option named an output format. -/
def build_args (model_path input_file output_file_base : String)
    (options : List (String × String)) : List String :=
  let base := ["-m", model_path, "-f", input_file, "--output-file", output_file_base]
  let st := options.foldl arg_step ([], false)
  base ++ st.1 ++ (if st.2 then [] else ["--output-srt"])

/-- The flags one option contributes, as a standalone function. -/
def option_flag_args (kv : String × String) : List String :=
  if strBegins kv.1 "output-" then ["--" ++ kv.1]
  else if kv.2 = "" then ["--" ++ kv.1]
  else ["--" ++ kv.1, kv.2]

theorem foldl_arg_step (options : List (String × String))
    (acc : List String) (b : Bool) :
    options.foldl arg_step (acc, b)
      = (acc ++ options.flatMap option_flag_args,
         b || options.any (fun kv => strBegins kv.1 "output-")) := by
  induction options generalizing acc b with
  | nil => simp
  | cons kv rest ih =>
      simp only [List.foldl_cons, List.flatMap_cons, List.any_cons, arg_step,
        option_flag_args]
      by_cases h1 : strBegins kv.1 "output-" = true
      · simp [h1, ih]
      · simp only [Bool.not_eq_true] at h1
        by_cases h2 : kv.2 = ""
        · simp [h1, h2, ih]
        · simp [h1, h2, ih]

/-- C3 (counterexample).  The claim that a non-empty option value always
follows its flag fails for keys naming an output format: the option
`("output-txt", "x")` has a non-empty value, yet the built argument list
contains the bare `--output-txt` flag and the value `"x"` appears
nowhere. -/
theorem build_args_counterexample :
    (("output-txt", "x") ∈ [(("output-txt" : String), ("x" : String))]) ∧
      ("x" : String) ≠ "" ∧
      "--output-txt" ∈ build_args "m" "in" "out" [("output-txt", "x")] ∧
      "x" ∉ build_args "m" "in" "out" [("output-txt", "x")] := by decide

/-- C3 (amended).  `build_args` is the fixed prefix (model, input file,
output base) followed by the per-option translation — a key starting with
`output-` becomes a bare flag regardless of its value, an empty value a
bare flag, a non-empty value the flag followed by the value — and
`--output-srt` is appended exactly when no option key starts with
`output-`. -/
theorem build_args_spec (model_path input_file output_file_base : String)
    (options : List (String × String)) :
    build_args model_path input_file output_file_base options
      = ["-m", model_path, "-f", input_file, "--output-file", output_file_base]
          ++ options.flatMap option_flag_args
          ++ (if options.any (fun kv => strBegins kv.1 "output-") then []
              else ["--output-srt"]) := by
  unfold build_args
  rw [foldl_arg_step]
  simp only [Bool.false_or, List.nil_append]

/-! ## The Transcription Job Runner (`services/whisper_service.rs`) -/

/-- Splitting a character list at a separator. -/
def splitChars (sep : Char) : List Char → List (List Char)
  | [] => [[]]
  | c :: cs =>
      let r := splitChars sep cs
      if c = sep then [] :: r
      else
        match r with
        | [] => [[c]]
        | g :: gs => (c :: g) :: gs

/-- The `input_path.file_name().and_then(to_str).unwrap_or("unknown")`
step: the last nonempty `/`-separated component of the path, `"unknown"`
when there is none. -/
def file_name_of (path : String) : String :=
  match ((splitChars '/' path.data).filter (fun g => !g.isEmpty)).getLast? with
  | some g => String.mk g
  | none => "unknown"

/-- The path fields of `WhisperService`. -/
structure WhisperService where
  whisper_repo_path : String
  whisper_binary_path : String
  models_path : String
  history_service : HistoryService

/-- The model weight path `models_path/ggml-{model}.bin`. -/
def model_file_path (svc : WhisperService) (model : String) : String :=
  svc.models_path ++ "/ggml-" ++ model ++ ".bin"

/-- The fixed, ordered candidate locations of the engine binary checked by
`start_transcription_with_options`. -/
def binary_candidates (svc : WhisperService) : List String :=
  [svc.whisper_repo_path ++ "/build/bin/whisper-cli",
   svc.whisper_repo_path ++ "/build/whisper-cli",
   svc.whisper_repo_path ++ "/build/bin/main",
   svc.whisper_repo_path ++ "/build/main"]

/-- The synchronous part of
`WhisperService::start_transcription_with_options`: validate the model
file, create the history entry, resolve the engine binary (marking the
fresh record failed and returning an error when none of the candidates
exists — the `.ok()` on that marking discards its own failure), and
otherwise return the job id.  The argument list it passes to the engine is
`build_args`; the directory creation, the spawn and the asynchronous
process supervision have no further synchronous effect (the completion
handler is modelled separately by `on_process_success`). -/
def start_transcription_with_options (c : Clock) (uuid : String)
    (svc : WhisperService) (w : World) (config : WhisperConfig) :
    Except String String × World :=
  if (w.disk (model_file_path svc config.model)).isNone then
    (.error ("Model not found: " ++ config.model), w)
  else
    match create_history_entry c uuid w (file_name_of config.input_file)
        config.input_file config.model config.options with
    | (history, w1) =>
        match (binary_candidates svc).find? (fun p => (w1.disk p).isSome) with
        | none =>
            (.error "Whisper binary not found",
              match mark_history_failed c w1 history.id "Whisper binary not found" with
              | .ok r => r.2
              | .error _ => w1)
        | some _binary_path => (.ok history.id, w1)

/-- The recognized output formats checked by
`collect_and_save_result_files` (option key, format extension). -/
def output_formats : List (String × String) :=
  [("output-txt", "txt"), ("output-srt", "srt"), ("output-vtt", "vtt"),
   ("output-csv", "csv"), ("output-json", "json"), ("output-lrc", "lrc")]

/-- Rust `HashMap::contains_key` on the option association list. -/
def hasKey (options : List (String × String)) (k : String) : Bool :=
  options.any (fun kv => kv.1 = k)

/-- The result files located by `collect_and_save_result_files`: for each
recognized format whose option is enabled (or the default `srt`), the
file `files/result.{format}` of the job's directory when it exists. -/
def scanned_result_files (s : HistoryService) (w : World) (history_id : String)
    (options : List (String × String)) : List (String × String) :=
  output_formats.filterMap (fun of =>
    if hasKey options of.1 || of.2 = "srt" then
      if (w.disk (s.get_result_file_path history_id of.2)).isSome then
        some (s.get_result_file_path history_id of.2, of.2)
      else none
    else none)

/-- Modelled from the spec: `HistoryService::register_existing_results` is
called from `collect_and_save_result_files` but its definition is not
among the provided sources.  Following §4.1 (`registerExistingResults`),
for each listed file that exists on disk its size is read and a Result
Entry with the current timestamp is appended; a not-found error is
returned when no listed file exists; and per §4.4 step 6 the record is
marked Completed once the found files are registered, then persisted with
the index updated. -/
def register_existing_results (c : Clock) (w : World) (history_id : String)
    (result_files : List (String × String)) :
    Except String (TranscriptionHistory × World) :=
  match load_history_metadata w history_id with
  | none => .error ("History not found: " ++ history_id)
  | some history =>
      let existing := result_files.filter (fun pf => (w.disk pf.1).isSome)
      if existing.isEmpty then .error "No result files found"
      else
        let entries := existing.map (fun pf =>
          ({ file_path := pf.1, format := pf.2, file_size := (w.disk pf.1).getD 0,
             created_at := c.render c.now } : TranscriptionResult))
        let updated := (entries.foldl TranscriptionHistory.add_result history).mark_completed c
        .ok (updated, update_history_index (save_history_metadata w updated) updated)

/-- Function `WhisperService::collect_and_save_result_files`: scan the
job's `files` directory for the recognized formats and register what was
found; zero files is an error. -/
def collect_and_save_result_files (c : Clock) (s : HistoryService) (w : World)
    (history_id : String) (options : List (String × String)) :
    Except String World :=
  let result_files := scanned_result_files s w history_id options
  if result_files.isEmpty then .error "No result files found in files directory"
  else
    match register_existing_results c w history_id result_files with
    | .ok r => .ok r.2
    | .error e => .error e

/-- The success branch of the process-exit handler spawned by
`start_transcription_with_options`: on a successful exit, collect and
register the produced files; when that fails, mark the job failed with
the collector's message (the emitted events carry no store effect). -/
def on_process_success (c : Clock) (s : HistoryService) (w : World)
    (history_id : String) (options : List (String × String)) : World :=
  match collect_and_save_result_files c s w history_id options with
  | .ok w' => w'
  | .error e =>
      match mark_history_failed c w history_id ("Failed to save results: " ++ e) with
      | .ok r => r.2
      | .error _ => w

/-! ## Registration of already-produced results
(`HistoryService::add_transcription_results`) -/

/-- One iteration of the loop of `add_transcription_results`: skip a
source file that does not exist; otherwise copy it to the job's
`files/result.{format}` target, read the copied file's size and append a
Result Entry. -/
def atr_step (c : Clock) (s : HistoryService) (history_id : String)
    (st : TranscriptionHistory × World) (pf : String × String) :
    TranscriptionHistory × World :=
  match st.2.disk pf.1 with
  | none => st
  | some size =>
      let target := s.get_result_file_path history_id pf.2
      let w' : World :=
        { st.2 with disk := fun p => if p = target then some size else st.2.disk p }
      (st.1.add_result
        { file_path := target, format := pf.2, file_size := (w'.disk target).getD 0,
          created_at := c.render c.now }, w')

/-- Method `HistoryService::add_transcription_results`: load the record,
run the copy-and-append loop over the listed files, mark the record
completed, persist it and update the index. -/
def add_transcription_results (c : Clock) (s : HistoryService) (w : World)
    (history_id : String) (result_files : List (String × String)) :
    Except String (TranscriptionHistory × World) :=
  match load_history_metadata w history_id with
  | none => .error ("History not found: " ++ history_id)
  | some history0 =>
      let st := result_files.foldl (atr_step c s history_id) (history0, w)
      let history := st.1.mark_completed c
      .ok (history, update_history_index (save_history_metadata st.2 history) history)

/-- The Result Entry the loop of `add_transcription_results` appends for
an existing source file `pf`, expressed against the pre-call disk. -/
def atr_entry (c : Clock) (s : HistoryService) (history_id : String) (w0 : World)
    (pf : String × String) : TranscriptionResult :=
  { file_path := s.get_result_file_path history_id pf.2, format := pf.2,
    file_size := (w0.disk pf.1).getD 0, created_at := c.render c.now }

/-! ## Helper lemmas about the record operations -/

theorem mark_completed_id (h : TranscriptionHistory) (c : Clock) :
    (h.mark_completed c).id = h.id := by
  unfold TranscriptionHistory.mark_completed
  cases hp : c.parse h.created_at <;> simp [hp]

theorem mark_completed_status (h : TranscriptionHistory) (c : Clock) :
    (h.mark_completed c).status = .Completed := by
  unfold TranscriptionHistory.mark_completed
  cases hp : c.parse h.created_at <;> simp [hp]

theorem mark_completed_results (h : TranscriptionHistory) (c : Clock) :
    (h.mark_completed c).results = h.results := by
  unfold TranscriptionHistory.mark_completed
  cases hp : c.parse h.created_at <;> simp [hp]

theorem foldl_add_result (rs : List TranscriptionResult) (h : TranscriptionHistory) :
    rs.foldl TranscriptionHistory.add_result h = { h with results := h.results ++ rs } := by
  induction rs generalizing h with
  | nil => simp
  | cons r rest ih =>
      simp only [List.foldl_cons, ih]
      simp [TranscriptionHistory.add_result]

theorem load_after_save_self (w : World) (h : TranscriptionHistory) :
    load_history_metadata (save_history_metadata w h) h.id = some h :=
  getMeta_setMeta w.metadata h

/-! ## C7: a missing model fails before any record is created -/

/-- C7.  When the referenced model file does not exist,
`start_transcription_with_options` returns the model-not-found error and
the store is completely unchanged: no metadata record and no index entry
was created for the request. -/
theorem model_missing_no_record (c : Clock) (uuid : String) (svc : WhisperService)
    (w : World) (config : WhisperConfig)
    (hm : w.disk (model_file_path svc config.model) = none) :
    start_transcription_with_options c uuid svc w config
      = (.error ("Model not found: " ++ config.model), w) := by
  simp [start_transcription_with_options, hm]

def svc0 : WhisperService :=
  { whisper_repo_path := "/h/.whisper-gui/whisper.cpp"
    whisper_binary_path := "/h/.whisper-gui/whisper.cpp/build/bin/main"
    models_path := "/h/.whisper-gui/models"
    history_service := hs0 }

def cfg0 : WhisperConfig :=
  { model := "base", input_file := "/tmp/a.mp3", options := [] }

def w7 : World := { disk := fun _ => none, metadata := [], index := none }

/-- C7 (witness): a concrete submission against an empty disk. -/
theorem model_missing_no_record_witness :
    start_transcription_with_options clock0 "u7" svc0 w7 cfg0
      = (.error ("Model not found: " ++ "base"), w7) :=
  model_missing_no_record clock0 "u7" svc0 w7 cfg0 rfl

/-! ## C8: a missing engine binary fails the just-created record -/

/-- C8.  When the model file exists but none of the ordered candidate
engine-binary paths does, the submission returns the engine-not-found
error, and the record just created for the request (under the fresh uuid)
has already been transitioned to Failed with that error message in the
returned store. -/
theorem binary_missing_marks_failed (c : Clock) (uuid : String)
    (svc : WhisperService) (w : World) (config : WhisperConfig)
    (hm : w.disk (model_file_path svc config.model) ≠ none)
    (hb : ∀ p ∈ binary_candidates svc, w.disk p = none) :
    (start_transcription_with_options c uuid svc w config).1
        = .error "Whisper binary not found" ∧
      ∃ r, load_history_metadata
          (start_transcription_with_options c uuid svc w config).2 uuid = some r ∧
        r.status = .Failed ∧ r.error_message = some "Whisper binary not found" := by
  have hNone : (w.disk (model_file_path svc config.model)).isNone = false := by
    cases hw : w.disk (model_file_path svc config.model) with
    | none => exact absurd hw hm
    | some _ => rfl
  set nh := TranscriptionHistory.new c uuid (file_name_of config.input_file)
    config.input_file config.model config.options with hnh
  set w1 := update_history_index (save_history_metadata w nh) nh with hw1
  have hfind : (binary_candidates svc).find? (fun p => (w1.disk p).isSome) = none := by
    apply List.find?_eq_none.mpr
    intro p hp
    have hdp : w1.disk p = w.disk p := rfl
    simp [hdp, hb p hp]
  have hload : load_history_metadata w1 nh.id = some nh :=
    getMeta_setMeta w.metadata nh
  set fh := nh.mark_failed c "Whisper binary not found" with hfh
  have hstart : start_transcription_with_options c uuid svc w config
      = (.error "Whisper binary not found",
          update_history_index (save_history_metadata w1 fh) fh) := by
    simp only [start_transcription_with_options, hNone, Bool.false_eq_true, if_false]
    have hcr : create_history_entry c uuid w (file_name_of config.input_file)
        config.input_file config.model config.options = (nh, w1) := rfl
    rw [hcr]
    simp only [hfind, mark_history_failed, hload]
  refine ⟨by rw [hstart], ⟨fh, ?_, rfl, rfl⟩⟩
  rw [hstart]
  exact getMeta_setMeta w1.metadata fh

def w8 : World :=
  { disk := fun p => if p = "/h/.whisper-gui/models/ggml-base.bin" then some 10 else none
    metadata := []
    index := none }

/-- C8 (witness): a concrete submission where only the model file exists. -/
theorem binary_missing_marks_failed_witness :
    (start_transcription_with_options clock0 "u8" svc0 w8 cfg0).1
        = .error "Whisper binary not found" ∧
      ∃ r, load_history_metadata
          (start_transcription_with_options clock0 "u8" svc0 w8 cfg0).2 "u8" = some r ∧
        r.status = .Failed ∧ r.error_message = some "Whisper binary not found" :=
  binary_missing_marks_failed clock0 "u8" svc0 w8 cfg0 (by decide) (by decide)

/-! ## C9: zero collected files fail the job, at least one completes it -/

theorem scanned_filter_all (s : HistoryService) (w : World) (history_id : String)
    (options : List (String × String)) :
    (scanned_result_files s w history_id options).filter
        (fun pf => (w.disk pf.1).isSome)
      = scanned_result_files s w history_id options := by
  apply List.filter_eq_self.mpr
  intro a ha
  simp only [scanned_result_files, List.mem_filterMap] at ha
  obtain ⟨of, _, ha⟩ := ha
  split at ha
  · split at ha
    · cases ha
      assumption
    · cases ha
  · cases ha

theorem register_existing_results_ok (c : Clock) (w : World) (history_id : String)
    (files : List (String × String)) (h0 : TranscriptionHistory)
    (hld : load_history_metadata w history_id = some h0)
    (hfil : files.filter (fun pf => (w.disk pf.1).isSome) = files)
    (hne : files.isEmpty = false) :
    ∃ r w', register_existing_results c w history_id files = .ok (r, w') ∧
      r.id = h0.id ∧ r.status = .Completed ∧
      w' = update_history_index (save_history_metadata w r) r := by
  simp only [register_existing_results, hld]
  rw [hfil]
  simp only [hne, Bool.false_eq_true, if_false]
  refine ⟨_, _, rfl, ?_, mark_completed_status _ _, rfl⟩
  rw [mark_completed_id, foldl_add_result]

/-- C9.  After a successful process exit, when the scan of the job's
output directory finds no recognized result file the record is marked
Failed with the collector's error message; when it finds at least one,
the record is registered and marked Completed. -/
theorem process_success_outcome (c : Clock) (s : HistoryService) (w : World)
    (history_id : String) (options : List (String × String))
    (h0 : TranscriptionHistory)
    (hld : load_history_metadata w history_id = some h0) (hid : h0.id = history_id) :
    (scanned_result_files s w history_id options = [] →
      ∃ r, load_history_metadata (on_process_success c s w history_id options)
          history_id = some r ∧
        r.status = .Failed ∧
        r.error_message
          = some ("Failed to save results: " ++ "No result files found in files directory")) ∧
    (scanned_result_files s w history_id options ≠ [] →
      ∃ r, load_history_metadata (on_process_success c s w history_id options)
          history_id = some r ∧
        r.status = .Completed) := by
  constructor
  · intro hempty
    have hop : on_process_success c s w history_id options
        = update_history_index
            (save_history_metadata w
              (h0.mark_failed c
                ("Failed to save results: " ++ "No result files found in files directory")))
            (h0.mark_failed c
              ("Failed to save results: " ++ "No result files found in files directory")) := by
      simp only [on_process_success, collect_and_save_result_files, hempty,
        List.isEmpty_nil, if_true, mark_history_failed, hld]
    rw [hop]
    refine ⟨h0.mark_failed c _, ?_, rfl, rfl⟩
    have : (h0.mark_failed c
        ("Failed to save results: " ++ "No result files found in files directory")).id
        = history_id := hid
    rw [← this]
    exact getMeta_setMeta _ _
  · intro hne
    have hnotempty : (scanned_result_files s w history_id options).isEmpty = false := by
      cases hsc : scanned_result_files s w history_id options with
      | nil => exact absurd hsc hne
      | cons a l => rfl
    obtain ⟨r, w', hreg, hrid, hrst, hw'⟩ :=
      register_existing_results_ok c w history_id
        (scanned_result_files s w history_id options) h0 hld
        (scanned_filter_all s w history_id options) hnotempty
    have hop : on_process_success c s w history_id options = w' := by
      simp only [on_process_success, collect_and_save_result_files, hnotempty,
        Bool.false_eq_true, if_false, hreg]
    rw [hop, hw']
    refine ⟨r, ?_, hrst⟩
    have hidu : r.id = history_id := hrid.trans hid
    rw [← hidu]
    exact getMeta_setMeta _ _

def w9 : World :=
  { disk := fun _ => none
    metadata := [("j", sampleRecord "j")]
    index := some [sampleRecord "j"] }

/-- C9 (witness): a record whose output directory holds no result file. -/
theorem process_success_outcome_witness :
    (scanned_result_files hs0 w9 "j" [] = [] →
      ∃ r, load_history_metadata (on_process_success clock0 hs0 w9 "j" []) "j" = some r ∧
        r.status = .Failed ∧
        r.error_message
          = some ("Failed to save results: " ++ "No result files found in files directory")) ∧
    (scanned_result_files hs0 w9 "j" [] ≠ [] →
      ∃ r, load_history_metadata (on_process_success clock0 hs0 w9 "j" []) "j" = some r ∧
        r.status = .Completed) :=
  process_success_outcome clock0 hs0 w9 "j" [] (sampleRecord "j") (by decide) rfl

theorem atr_foldl (c : Clock) (s : HistoryService) (history_id : String)
    (files : List (String × String)) (h : TranscriptionHistory) (w0 wc : World)
    (hag : ∀ pf ∈ files, wc.disk pf.1 = w0.disk pf.1)
    (hsh : ∀ pf ∈ files, ∀ pf2 ∈ files, pf.1 ≠ s.get_result_file_path history_id pf2.2) :
    (files.foldl (atr_step c s history_id) (h, wc)).1.results
      = h.results ++ ((files.filter (fun pf => (w0.disk pf.1).isSome)).map
          (atr_entry c s history_id w0)) := by
  induction files generalizing h wc with
  | nil => simp
  | cons pf rest ih =>
      have hagree : wc.disk pf.1 = w0.disk pf.1 := hag pf (by simp)
      cases hx : w0.disk pf.1 with
      | none =>
          have hstep : atr_step c s history_id (h, wc) pf = (h, wc) := by
            simp [atr_step, hagree, hx]
          rw [List.foldl_cons, hstep]
          have hfil : (pf :: rest).filter (fun q => (w0.disk q.1).isSome)
              = rest.filter (fun q => (w0.disk q.1).isSome) := by
            simp [List.filter_cons, hx]
          rw [hfil]
          exact ih h wc (fun q hq => hag q (by simp [hq]))
            (fun q hq q2 hq2 => hsh q (by simp [hq]) q2 (by simp [hq2]))
      | some size =>
          have hstep : atr_step c s history_id (h, wc) pf
              = (h.add_result (atr_entry c s history_id w0 pf),
                 { wc with disk := fun p =>
                     if p = s.get_result_file_path history_id pf.2 then some size
                     else wc.disk p }) := by
            simp [atr_step, hagree, hx, atr_entry]
          rw [List.foldl_cons, hstep]
          have hfil : (pf :: rest).filter (fun q => (w0.disk q.1).isSome)
              = pf :: rest.filter (fun q => (w0.disk q.1).isSome) := by
            simp [List.filter_cons, hx]
          rw [hfil]
          have hag2 : ∀ q ∈ rest,
              (if q.1 = s.get_result_file_path history_id pf.2 then some size
               else wc.disk q.1) = w0.disk q.1 := by
            intro q hq
            have hq1 : q.1 ≠ s.get_result_file_path history_id pf.2 :=
              hsh q (by simp [hq]) pf (by simp)
            rw [if_neg hq1]
            exact hag q (by simp [hq])
          have := ih (h.add_result (atr_entry c s history_id w0 pf))
            ({ wc with disk := fun p =>
                 if p = s.get_result_file_path history_id pf.2 then some size
                 else wc.disk p })
            (fun q hq => hag2 q hq)
            (fun q hq q2 hq2 => hsh q (by simp [hq]) q2 (by simp [hq2]))
          rw [this]
          simp [TranscriptionHistory.add_result]

/-- C2 (amended).  Whenever the referenced record exists,
`add_transcription_results` succeeds — also when none of the listed files
exists on disk (no not-found error — the loop merely registers nothing) —
and returns the record marked Completed; provided the listed source paths
are distinct from the job's own `files/result.{format}` target paths, the
entries appended are exactly one per listed file that exists on disk, in
order, carrying the target path, the format and the source file's size. -/
theorem add_transcription_results_spec (c : Clock) (s : HistoryService) (w : World)
    (history_id : String) (files : List (String × String)) (h0 : TranscriptionHistory)
    (hld : load_history_metadata w history_id = some h0) :
    ∃ h' w', add_transcription_results c s w history_id files = .ok (h', w') ∧
      h'.status = .Completed ∧
      ((∀ pf ∈ files, ∀ pf2 ∈ files, pf.1 ≠ s.get_result_file_path history_id pf2.2) →
        h'.results = h0.results ++
          ((files.filter (fun pf => (w.disk pf.1).isSome)).map
            (atr_entry c s history_id w))) := by
  simp only [add_transcription_results, hld]
  refine ⟨_, _, rfl, mark_completed_status _ _, fun hsh => ?_⟩
  rw [mark_completed_results]
  exact atr_foldl c s history_id files h0 w w (fun _ _ => rfl) hsh

def w2c : World :=
  { disk := fun _ => none
    metadata := [("a", sampleRecord "a")]
    index := some [sampleRecord "a"] }

/-- C2 (counterexample).  With a single listed file that does not exist on
disk, `add_transcription_results` does not fail with a not-found error: it
returns `ok`, with no result entry registered (and the record marked
Completed). -/
theorem add_transcription_results_counterexample :
    w2c.disk "/tmp/missing.txt" = none ∧
      (add_transcription_results clock0 hs0 w2c "a" [("/tmp/missing.txt", "txt")]).isOk
        = true ∧
      ((add_transcription_results clock0 hs0 w2c "a"
          [("/tmp/missing.txt", "txt")]).toOption.map (fun r => r.1.results))
        = some [] := by
  refine ⟨rfl, ?_, ?_⟩ <;> decide

def w2w : World :=
  { disk := fun p => if p = "/tmp/out.srt" then some 120 else none
    metadata := [("a", sampleRecord "a")]
    index := some [sampleRecord "a"] }

/-- C2 (witness): registration of one existing file. -/
theorem add_transcription_results_spec_witness :
    ∃ h' w', add_transcription_results clock0 hs0 w2w "a" [("/tmp/out.srt", "srt")]
        = .ok (h', w') ∧
      h'.status = .Completed ∧
      ((∀ pf ∈ [(("/tmp/out.srt" : String), ("srt" : String))],
          ∀ pf2 ∈ [(("/tmp/out.srt" : String), ("srt" : String))],
            pf.1 ≠ hs0.get_result_file_path "a" pf2.2) →
        h'.results = (sampleRecord "a").results ++
          (([(("/tmp/out.srt" : String), ("srt" : String))].filter
              (fun pf => (w2w.disk pf.1).isSome)).map
            (atr_entry clock0 hs0 "a" w2w))) :=
  add_transcription_results_spec clock0 hs0 w2w "a" [("/tmp/out.srt", "srt")]
    (sampleRecord "a") (by decide)

end WhisperGui
